import Mathlib

/-!
Shallow embedding of the go-llsd LLSD codec library (package `llsd`).

The development models, directly from the Go source files:
  * the token model and scalar-type enumeration (`token.go` material embedded
    in the repository),
  * the text and binary scalar decoders (`textDecoder`, `binaryDecoder`),
  * the binary tokenizer (`binary_scan.go`) and the XML tokenizer
    (`xml_scan.go` variant that skips the `llsd` element, which is the
    variant consistent with `decode.go`'s `Unmarshal`),
  * the reflective unmarshal engine (`decode.go`: `Unmarshal`, `value`,
    `object`, `array`, `scalar`, `parseTag`, `fieldsForType`),
  * the XML encoder (`XMLEncoder.Encode`, `marshalValue`, `writeBytes`,
    `isEmptyValue`).

Go machine integers are modelled as `Nat`/`Int` with explicit wrapping where
the source can overflow (`reflect.Value.SetInt` truncates to the destination
width).  Byte strings are `List Nat` (each entry a byte value).  Fallible Go
code returns the `Res` type below; a Go runtime panic is the `Res.crash`
constructor.  Go `float64`/`float32` values are carried as their IEEE 754 bit
patterns (`Nat`): the binary wire format only ever moves bits, and no claim
in this development depends on float arithmetic.  Primitive codecs that the
specification lists as external collaborators (strconv.ParseFloat, RFC 3339
time parsing, base64/ascii85 decode, ascii85 encode, float formatting) are
modelled as explicitly marked opaque-but-total functions; no theorem below
evaluates them.

Reflective destination values are modelled by the inductive `RVal`, which
enumerates the Go destination kinds the library dispatches on (bool, the
signed and unsigned integer kinds, float32/float64, string, the `URL` named
string type, `[]byte`, fixed byte arrays, the `UUID` type, `time.Time`,
slices, fixed arrays, string-keyed maps, structs, pointers and the empty
interface).  None of the modelled destination types implements the library's
custom `TextUnmarshaler` / `BinaryUnmarshaler` / `TextMarshaler` hooks, so
the hook checks at the top of `scalar` and `marshalValue` are vacuous in the
model (this matches every claim, all of which concern hook-free
destinations).
-/

namespace GoLLSD

/-- Bytes are modelled as natural numbers (values 0..255 in every input the
theorems use). -/
abbrev Byte := Nat

/-- IEEE 754 double bit pattern, carried opaquely. -/
abbrev F64Bits := Nat

/-- Go `string(b)` on a byte slice, for the ASCII payloads used here. -/
def strOfBytes (bs : List Byte) : String :=
  (bs.map Char.ofNat).asString

/-- Go `[]byte(s)` for the ASCII strings used here. -/
def bytesOfStr (s : String) : List Byte :=
  s.toList.map Char.toNat

/-- Big-endian 32-bit read of the first four bytes (callers guard length,
mirroring `binary.BigEndian.Uint32`'s bounds check). -/
def beU32 (b : List Byte) : Nat :=
  b.getD 0 0 * 2 ^ 24 + b.getD 1 0 * 2 ^ 16 + b.getD 2 0 * 2 ^ 8 + b.getD 3 0

/-- Big-endian 64-bit read of the first eight bytes. -/
def beU64 (b : List Byte) : Nat :=
  b.getD 0 0 * 2 ^ 56 + b.getD 1 0 * 2 ^ 48 + b.getD 2 0 * 2 ^ 40 +
    b.getD 3 0 * 2 ^ 32 + b.getD 4 0 * 2 ^ 24 + b.getD 5 0 * 2 ^ 16 +
    b.getD 6 0 * 2 ^ 8 + b.getD 7 0

/-- Error taxonomy of the library plus wrapped stdlib errors
(`MarshalTypeError`, `UnmarshalTypeError`, `InvalidLLSDError`, `errors.New`
and friends, `io.EOF`). -/
inductive GoErr where
  | unmarshalType (value : String) (ty : String) (offset : Int)
  | invalid (problem : String) (offset : Int)
  | marshalType (ty : String)
  | plain (msg : String)
  | eof
deriving DecidableEq, Repr

/-- Result of fallible Go code: a value, a returned error, or a runtime
panic (`crash`). -/
inductive Res (α : Type) where
  | ok (a : α)
  | err (e : GoErr)
  | crash (msg : String)
deriving DecidableEq, Repr

/-- Text encoding names (`token.go` constants). -/
def Base16 : String := "base16"

/-- Text encoding name for base64. -/
def Base64 : String := "base64"

/-- Text encoding name for ascii85. -/
def Base85 : String := "base85"

/-- The `ScalarType` enumeration from `token.go`. -/
inductive ScalarType where
  | undefined
  | boolean
  | integer
  | real
  | uuidType
  | str
  | binary
  | date
  | uri
deriving DecidableEq, Repr

/-- The `ScalarType.String` method from `token.go`. -/
def ScalarType.name : ScalarType → String
  | .undefined => "undef"
  | .boolean => "boolean"
  | .integer => "integer"
  | .real => "real"
  | .uuidType => "uuid"
  | .str => "string"
  | .binary => "binary"
  | .date => "date"
  | .uri => "uri"

/-- The wire-level token stream (`token.go`).  `DocumentStart`/`DocumentEnd`
are produced by the `xml_scan.go` revision of the XML scanner and are used
by `decode_test.go`; `decode.go`'s `value` has no case for them. -/
inductive Token where
  | arrayStart
  | arrayEnd
  | mapStart
  | mapEnd
  | documentStart
  | documentEnd
  | key (s : String)
  | scalar (ty : ScalarType) (data : List Byte) (attr : List (String × String))
deriving DecidableEq, Repr

/-- Go `reflect.TypeOf(tok).Name()` on the token structs, as used in the
engine's error messages. -/
def Token.typeName : Token → String
  | .arrayStart => "ArrayStart"
  | .arrayEnd => "ArrayEnd"
  | .mapStart => "MapStart"
  | .mapEnd => "MapEnd"
  | .documentStart => "DocumentStart"
  | .documentEnd => "DocumentEnd"
  | .key _ => "Key"
  | .scalar _ _ _ => "Scalar"

/-- Lookup in the scalar token's XML attribute map. -/
def attrGet (attr : List (String × String)) (k : String) : Option String :=
  (attr.find? (fun p => p.fst = k)).map Prod.snd

/-! ## External primitive codecs

The specification (§1) places the base16/base64/base85, float, and RFC 3339
primitive codecs outside the system's scope.  The hex codec and the base64
encoder are exercised by claims and are implemented faithfully below; the
remaining primitives are modelled opaquely and are never evaluated by a
theorem. -/

/-- Modelled from the spec: the external `strconv.ParseFloat` primitive
codec (out of scope per §1).  Never evaluated by any theorem (every claim
that touches the text real decoder concerns the empty payload only). -/
def strconvParseFloat (c : List Byte) : Res F64Bits :=
  .err (.plain ("external codec strconv.ParseFloat: " ++ strOfBytes c))

/-- Modelled from the spec: the external RFC 3339 parser `time.Parse`
(out of scope per §1); result is seconds since the Unix epoch.  Never
evaluated by any theorem. -/
def timeParseRFC3339 (c : List Byte) : Res Int :=
  .err (.plain ("external codec time.Parse: " ++ strOfBytes c))

/-- Modelled from the spec: the external base64 decoder (out of scope per
§1).  Never evaluated by any theorem. -/
def base64DecodeExt (c : List Byte) : Res (List Byte) :=
  .err (.plain ("external codec base64.StdEncoding.Decode: " ++ strOfBytes c))

/-- Modelled from the spec: the external ascii85 decoder (out of scope per
§1).  Never evaluated by any theorem. -/
def ascii85DecodeExt (c : List Byte) : Res (List Byte) :=
  .err (.plain ("external codec ascii85.Decode: " ++ strOfBytes c))

/-- Modelled from the spec: the external ascii85 encoder (out of scope per
§1).  Never evaluated by any theorem beyond its position in the emitted
element. -/
def ascii85EncodeExt (b : List Byte) : String :=
  "external codec ascii85.Encode: " ++ strOfBytes b

/-- Modelled from the spec: `fmt.Sprintf "%f"` float formatting (out of
scope per §1).  Never evaluated by any theorem. -/
def floatFormatExt (bits : F64Bits) : String :=
  "external float formatting: " ++ toString bits

/-- Modelled from the spec: RFC 3339 rendering of a Unix timestamp
(`time.Time.Format`, out of scope per §1).  Never evaluated by any
theorem. -/
def timeFormatRFC3339Ext (sec : Int) : String :=
  "external codec time.Format: " ++ toString sec

/-- Modelled from the spec: `reflect.Value.OverflowFloat` on a `float32`
destination (IEEE 754 range check, out of scope per §1).  Never evaluated
by any theorem. -/
def f64OverflowsF32Ext (_bits : F64Bits) : Bool :=
  false

/-- Modelled from the spec: the IEEE 754 double-to-single conversion done by
`reflect.Value.SetFloat` on a `float32` destination (out of scope per §1).
Never evaluated by any theorem. -/
def f32OfF64BitsExt (bits : F64Bits) : Nat :=
  bits

/-- Modelled from the spec: the integer-to-double conversion
`float64(value.Unix())` (out of scope per §1).  Never evaluated by any
theorem. -/
def f64BitsOfIntExt (i : Int) : F64Bits :=
  i.toNat

/-! ## strconv.Atoi and the hex codec -/

/-- Decimal digit value of a character. -/
def digitVal (c : Char) : Option Nat :=
  if '0' ≤ c ∧ c ≤ '9' then some (c.toNat - '0'.toNat) else none

/-- Value of a nonempty all-decimal-digit character list. -/
def digitsVal (cs : List Char) : Option Nat :=
  match cs with
  | [] => none
  | _ =>
    cs.foldl
      (fun acc c =>
        match acc, digitVal c with
        | some a, some d => some (a * 10 + d)
        | _, _ => none)
      (some 0)

/-- Go `strconv.Atoi` on the payload bytes (optional sign, decimal digits,
64-bit range check; Go's `int` is 64 bits on the supported platforms). -/
def goAtoi (c : List Byte) : Res Int :=
  let s := strOfBytes c
  let signed : Bool × List Char :=
    match s.toList with
    | '+' :: r => (false, r)
    | '-' :: r => (true, r)
    | r => (false, r)
  match digitsVal signed.snd with
  | none => .err (.plain ("strconv.Atoi: parsing \"" ++ s ++ "\": invalid syntax"))
  | some n =>
    let v : Int := if signed.fst then -(n : Int) else (n : Int)
    if v < -(2 ^ 63) ∨ 2 ^ 63 - 1 < v then
      .err (.plain ("strconv.Atoi: parsing \"" ++ s ++ "\": value out of range"))
    else .ok v

/-- Hex digit value of a byte (`encoding/hex` accepts both cases). -/
def hexVal (b : Byte) : Option Nat :=
  if 48 ≤ b ∧ b ≤ 57 then some (b - 48)
  else if 97 ≤ b ∧ b ≤ 102 then some (b - 87)
  else if 65 ≤ b ∧ b ≤ 70 then some (b - 55)
  else none

/-- Go `hex.Decode`: pairs of hex digits to bytes; odd length or an invalid
byte is an error (the partially filled buffer Go also returns is irrelevant
because every caller propagates the error first). -/
def hexDecode : List Byte → Res (List Byte)
  | [] => .ok []
  | [_] => .err (.plain "encoding/hex: odd length hex string")
  | hi :: lo :: rest =>
    match hexVal hi, hexVal lo with
    | some h, some l =>
      match hexDecode rest with
      | .ok bs => .ok ((h * 16 + l) :: bs)
      | .err e => .err e
      | .crash m => .crash m
    | _, _ => .err (.plain "encoding/hex: invalid byte")

/-- Uppercase hex digit character for a value below 16. -/
def hexDigitUpper (n : Nat) : Char :=
  if n < 10 then Char.ofNat (48 + n) else Char.ofNat (55 + n)

/-- Go `strings.ToUpper (hex.EncodeToString b)`, as `writeBytes` emits for
base16. -/
def hexEncodeUpper : List Byte → String
  | [] => ""
  | b :: rest =>
    String.mk [hexDigitUpper (b / 16), hexDigitUpper (b % 16)] ++ hexEncodeUpper rest

/-- Standard base64 alphabet character for a value below 64. -/
def base64Char (n : Nat) : Char :=
  if n < 26 then Char.ofNat (65 + n)
  else if n < 52 then Char.ofNat (97 + (n - 26))
  else if n < 62 then Char.ofNat (48 + (n - 52))
  else if n = 62 then '+'
  else '/'

/-- Go `base64.StdEncoding.EncodeToString`: standard alphabet with `=`
padding. -/
def base64Encode : List Byte → String
  | [] => ""
  | [a] =>
    String.mk [base64Char (a / 4), base64Char (a % 4 * 16), '=', '=']
  | [a, b] =>
    String.mk [base64Char (a / 4), base64Char (a % 4 * 16 + b / 16),
      base64Char (b % 16 * 4), '=']
  | a :: b :: c :: rest =>
    String.mk [base64Char (a / 4), base64Char (a % 4 * 16 + b / 16),
      base64Char (b % 16 * 4 + c / 64), base64Char (c % 64)] ++ base64Encode rest

/-! ## Scalar decoders (`token.go`) -/

/-- Text decoder: `real` (empty payload is the zero value, otherwise parse a
decimal float). -/
def textDecoder.real (c : List Byte) : Res F64Bits :=
  if c.length = 0 then .ok 0 else strconvParseFloat c

/-- Text decoder: `uuid` (strip hyphens, hex-decode; Go's `h[:16]` panics
when fewer than 16 bytes decode). -/
def textDecoder.uuid (c : List Byte) : Res (List Byte) :=
  if c.length = 0 then .ok (List.replicate 16 0)
  else
    match hexDecode (c.filter (fun b => b ≠ 45)) with
    | .ok h =>
      if h.length < 16 then .crash "runtime error: slice bounds out of range"
      else .ok (h.take 16)
    | .err e => .err e
    | .crash m => .crash m

/-- Text decoder: `integer` is `strconv.Atoi` with no empty-payload
guard. -/
def textDecoder.integer (c : List Byte) : Res Int :=
  goAtoi c

/-- Text decoder: `binary` dispatches on the encoding name; an empty payload
is returned untouched before the dispatch. -/
def textDecoder.binary (c : List Byte) (encoding : String) : Res (List Byte) :=
  if c.length = 0 then .ok c
  else if encoding = Base16 ∨ encoding = "" then hexDecode c
  else if encoding = Base64 then base64DecodeExt c
  else if encoding = Base85 then ascii85DecodeExt c
  else .err (.plain ("Unknown encoding \"" ++ encoding ++ "\""))

/-- Text decoder: `boolean` accepts "1"/"true" and "0"/"false"; empty is
false; anything else errors. -/
def textDecoder.boolean (c : List Byte) : Res Bool :=
  if c.length = 0 then .ok false
  else if strOfBytes c = "1" ∨ strOfBytes c = "true" then .ok true
  else if strOfBytes c = "0" ∨ strOfBytes c = "false" then .ok false
  else .err (.plain ("Invalid boolean value " ++ strOfBytes c))

/-- Text decoder: `date` (empty payload is the Unix epoch, otherwise
RFC 3339). -/
def textDecoder.date (c : List Byte) : Res Int :=
  if c.length = 0 then .ok 0 else timeParseRFC3339 c

/-- Binary decoder: `real` reads eight big-endian bytes as IEEE 754 bits
(`binary.BigEndian.Uint64` panics below eight bytes; empty is guarded). -/
def binaryDecoder.real (b : List Byte) : Res F64Bits :=
  if b.length = 0 then .ok 0
  else if b.length < 8 then .crash "runtime error: index out of range"
  else .ok (beU64 b)

/-- Binary decoder: `uuid` copies the first 16 bytes (Go's `b[:16]` panics
below 16 bytes; empty is guarded). -/
def binaryDecoder.uuid (b : List Byte) : Res (List Byte) :=
  if b.length = 0 then .ok (List.replicate 16 0)
  else if b.length < 16 then .crash "runtime error: slice bounds out of range"
  else .ok (b.take 16)

/-- Binary decoder: `integer` is `int64(binary.BigEndian.Uint32 b)` — a
zero-extension of the four big-endian bytes, with no empty-payload guard
(`Uint32` panics below four bytes). -/
def binaryDecoder.integer (b : List Byte) : Res Int :=
  if b.length < 4 then .crash "runtime error: index out of range"
  else .ok (beU32 b : Int)

/-- Binary decoder: `binary` is the identity. -/
def binaryDecoder.binary (b : List Byte) (_encoding : String) : Res (List Byte) :=
  .ok b

/-- Binary decoder: `boolean` is `len b > 1`. -/
def binaryDecoder.boolean (b : List Byte) : Res Bool :=
  .ok (decide (1 < b.length))

/-- Binary decoder: `date` defers to `integer` and treats the result as
seconds since the epoch. -/
def binaryDecoder.date (b : List Byte) : Res Int :=
  match binaryDecoder.integer b with
  | .ok epoch => .ok epoch
  | .err e => .err e
  | .crash m => .crash m

end GoLLSD

namespace GoLLSD

/-- Thread a fallible Go computation (mirrors `if err != nil { return err }`
and panic propagation). -/
instance : Monad Res where
  pure := .ok
  bind := fun r f =>
    match r with
    | .ok a => f a
    | .err e => .err e
    | .crash m => .crash m

/-- Explicit bind on `Res`, for threading outside `do` blocks. -/
def Res.bind {α β : Type} (r : Res α) (f : α → Res β) : Res β :=
  match r with
  | .ok a => f a
  | .err e => .err e
  | .crash m => .crash m

/-- Scalar-decoder selection: the facade pairs `text = true` with
`textDecoder` and `text = false` with `binaryDecoder`
(`NewXMLDecoder` / `NewBinaryDecoder`). -/
def decReal (text : Bool) (c : List Byte) : Res F64Bits :=
  if text then textDecoder.real c else binaryDecoder.real c

/-- Decoder selection for `integer`. -/
def decInteger (text : Bool) (c : List Byte) : Res Int :=
  if text then textDecoder.integer c else binaryDecoder.integer c

/-- Decoder selection for `uuid`. -/
def decUuid (text : Bool) (c : List Byte) : Res (List Byte) :=
  if text then textDecoder.uuid c else binaryDecoder.uuid c

/-- Decoder selection for `binary`. -/
def decBinary (text : Bool) (c : List Byte) (encoding : String) : Res (List Byte) :=
  if text then textDecoder.binary c encoding else binaryDecoder.binary c encoding

/-- Decoder selection for `boolean`. -/
def decBoolean (text : Bool) (c : List Byte) : Res Bool :=
  if text then textDecoder.boolean c else binaryDecoder.boolean c

/-- Decoder selection for `date`. -/
def decDate (text : Bool) (c : List Byte) : Res Int :=
  if text then textDecoder.date c else binaryDecoder.date c

/-- Go signed integer kinds the engine dispatches on. -/
inductive IntKind where
  | i
  | i8
  | i16
  | i32
  | i64
deriving DecidableEq, Repr

/-- Bit width of a signed kind (`int` is 64 bits on the supported
platforms). -/
def IntKind.bits : IntKind → Nat
  | .i => 64
  | .i8 => 8
  | .i16 => 16
  | .i32 => 32
  | .i64 => 64

/-- Go type name of a signed kind. -/
def IntKind.tyName : IntKind → String
  | .i => "int"
  | .i8 => "int8"
  | .i16 => "int16"
  | .i32 => "int32"
  | .i64 => "int64"

/-- Go unsigned integer kinds the engine dispatches on. -/
inductive UintKind where
  | u
  | u8
  | u16
  | u32
  | u64
deriving DecidableEq, Repr

/-- Bit width of an unsigned kind. -/
def UintKind.bits : UintKind → Nat
  | .u => 64
  | .u8 => 8
  | .u16 => 16
  | .u32 => 32
  | .u64 => 64

/-- Go type name of an unsigned kind. -/
def UintKind.tyName : UintKind → String
  | .u => "uint"
  | .u8 => "uint8"
  | .u16 => "uint16"
  | .u32 => "uint32"
  | .u64 => "uint64"

/-- Two's-complement wrap of an integer to `w` bits — the conversion
performed by Go's `reflect.Value.SetInt` and by explicit conversions such
as `int32(value)`. -/
def wrapInt (w : Nat) (x : Int) : Int :=
  (x + 2 ^ (w - 1)) % ((2 ^ w : Nat) : Int) - 2 ^ (w - 1)

/-- Go `reflect.Value.OverflowInt` for a destination of kind `k`. -/
def overflowInt (k : IntKind) (x : Int) : Bool :=
  decide (x < -(2 ^ (k.bits - 1) : Int) ∨ (2 ^ (k.bits - 1) : Int) - 1 < x)

mutual

/-- Reflective destination values: the Go kinds `decode.go` dispatches on.
`vPtr proto isNil` is a pointer whose pointee type is the type of `proto`;
when `isNil = false` the pointee value is `proto` itself.  `vSlice`, `vArr`
and `vMap` carry the zero value of their element type as `proto` (Go
recovers it from the `reflect.Type`).  `vBytes` is `[]byte`, `vByteArr n`
is `[n]byte`, and `vUUID` is the library's `UUID = [16]byte` type (same
kind as a byte array, but a distinct Go type). -/
inductive RVal where
  | vBool (b : Bool)
  | vInt (k : IntKind) (v : Int)
  | vUint (k : UintKind) (v : Nat)
  | vF32 (bits : Nat)
  | vF64 (bits : F64Bits)
  | vString (s : String)
  | vURL (s : String)
  | vBytes (bs : List Byte)
  | vByteArr (n : Nat) (bs : List Byte)
  | vUUID (bs : List Byte)
  | vTime (sec : Int)
  | vSlice (proto : RVal) (elems : RVals)
  | vArr (proto : RVal) (elems : RVals)
  | vMap (proto : RVal) (entries : Entries)
  | vStruct (fields : Fields)
  | vPtr (proto : RVal) (isNil : Bool)
  | vIfaceNil
  | vIface (v : RVal)

/-- Element lists of slices and fixed arrays. -/
inductive RVals where
  | nil
  | cons (v : RVal) (rest : RVals)

/-- String-keyed map entries. -/
inductive Entries where
  | nil
  | cons (k : String) (v : RVal) (rest : Entries)

/-- Struct fields: Go field name, resolved tag string (the `llsd` tag, with
Go's fall-through to the `json` tag already applied), and field value. -/
inductive Fields where
  | nil
  | cons (goName tagStr : String) (v : RVal) (rest : Fields)

end

mutual

/-- Go zero value of the type of a given value (`reflect.New(T).Elem()`).
The zero `time.Time` is January 1 of year 1 (Unix second -62135596800). -/
def zeroOf : RVal → RVal
  | .vBool _ => .vBool false
  | .vInt k _ => .vInt k 0
  | .vUint k _ => .vUint k 0
  | .vF32 _ => .vF32 0
  | .vF64 _ => .vF64 0
  | .vString _ => .vString ""
  | .vURL _ => .vURL ""
  | .vBytes _ => .vBytes []
  | .vByteArr n _ => .vByteArr n (List.replicate n 0)
  | .vUUID _ => .vUUID (List.replicate 16 0)
  | .vTime _ => .vTime (-62135596800)
  | .vSlice proto _ => .vSlice proto .nil
  | .vArr proto elems => .vArr proto (zeroOfVals elems)
  | .vMap proto _ => .vMap proto .nil
  | .vStruct fs => .vStruct (zeroOfFields fs)
  | .vPtr proto _ => .vPtr proto true
  | .vIfaceNil => .vIfaceNil
  | .vIface _ => .vIfaceNil

/-- Zero values of fixed-array elements. -/
def zeroOfVals : RVals → RVals
  | .nil => .nil
  | .cons v rest => .cons (zeroOf v) (zeroOfVals rest)

/-- Zero values of struct fields. -/
def zeroOfFields : Fields → Fields
  | .nil => .nil
  | .cons n t v rest => .cons n t (zeroOf v) (zeroOfFields rest)

end

mutual

/-- Go type string of a destination, as `reflect.Type.String` renders it in
`UnmarshalTypeError`. -/
def RVal.typeName : RVal → String
  | .vBool _ => "bool"
  | .vInt k _ => k.tyName
  | .vUint k _ => k.tyName
  | .vF32 _ => "float32"
  | .vF64 _ => "float64"
  | .vString _ => "string"
  | .vURL _ => "llsd.URL"
  | .vBytes _ => "[]uint8"
  | .vByteArr n _ => "[" ++ toString n ++ "]uint8"
  | .vUUID _ => "llsd.UUID"
  | .vTime _ => "time.Time"
  | .vSlice proto _ => "[]" ++ RVal.typeName proto
  | .vArr proto elems => "[" ++ toString (RVals.length elems) ++ "]" ++ RVal.typeName proto
  | .vMap proto _ => "map[string]" ++ RVal.typeName proto
  | .vStruct _ => "struct"
  | .vPtr proto _ => "*" ++ RVal.typeName proto
  | .vIfaceNil => "interface \x7b\x7d"
  | .vIface _ => "interface \x7b\x7d"

/-- Length of an element list. -/
def RVals.length : RVals → Nat
  | .nil => 0
  | .cons _ rest => RVals.length rest + 1

end

/-- Copy semantics of Go `reflect.Copy`/`copy` into a fixed-length byte
destination: source bytes overwrite the prefix, the destination keeps its
tail. -/
def copyBytes (dst src : List Byte) : List Byte :=
  src.take dst.length ++ dst.drop src.length

/-- Information parsed from a `llsd`/`json` field tag (`tag` struct in
`decode.go`; the Go field `Omit` is called `omitted` here because `omit` is
reserved in Lean). -/
structure GoTag where
  encoding : String
  name : String
  omitted : Bool
  omitEmpty : Bool
deriving DecidableEq, Repr

/-- Go `strings.Split` with separator "," on a character list. -/
def splitCommaChars : List Char → List (List Char)
  | [] => [[]]
  | c :: rest =>
    let r := splitCommaChars rest
    if c = ',' then [] :: r
    else
      match r with
      | [] => [[c]]
      | h :: t => (c :: h) :: t

/-- Go `strings.Split t ","`. -/
def splitComma (t : String) : List String :=
  (splitCommaChars t.toList).map (fun cs => String.mk cs)

/-- The `parseTag` function from `decode.go`. -/
def parseTag (t fieldName : String) : GoTag :=
  if t = "" then { encoding := "", name := fieldName, omitted := false, omitEmpty := false }
  else
    let values := splitComma t
    if t = "-" then { encoding := "", name := fieldName, omitted := true, omitEmpty := false }
    else
      let name := if values.headD "" ≠ "" then values.headD "" else fieldName
      let opts := values.drop 1
      let omitEmpty := opts.any (fun v => v = "omitempty")
      let encoding :=
        opts.foldl (fun acc v => if v = Base16 ∨ v = Base64 ∨ v = Base85 then v else acc) Base16
      { encoding := encoding, name := name, omitted := false, omitEmpty := omitEmpty }

/-- Cached per-field information (`fieldInfo`): wire name, field index, and
parsed tag. -/
structure FieldDesc where
  wireName : String
  index : Nat
  tag : GoTag
deriving DecidableEq, Repr

/-- Go map insertion `fields[tag.Name] = fieldInfo{...}`: replace an
existing entry for the same wire name, else append. -/
def upsertField (l : List FieldDesc) (f : FieldDesc) : List FieldDesc :=
  match l with
  | [] => [f]
  | g :: rest => if g.wireName = f.wireName then f :: rest else g :: upsertField rest f

/-- Worker for `fieldsFor`. -/
def fieldsForAux : Fields → Nat → List FieldDesc → List FieldDesc
  | .nil, _, acc => acc
  | .cons goName tagStr _ rest, i, acc =>
    let tag := parseTag tagStr goName
    fieldsForAux rest (i + 1) (upsertField acc { wireName := tag.name, index := i, tag := tag })

/-- The `fieldsForType` function from `decode.go` (the `sync.Map` cache is
pure memoization and is not modelled: `cachedFieldsForType` always returns
this table). -/
def fieldsFor (fs : Fields) : List FieldDesc :=
  fieldsForAux fs 0 []

/-- Field lookup `fields[key]`. -/
def fieldLookup (fs : Fields) (key : String) : Option FieldDesc :=
  (fieldsFor fs).find? (fun f => f.wireName = key)

/-- Read a struct field by index (`v.FieldByIndex`). -/
def Fields.get? : Fields → Nat → Option RVal
  | .nil, _ => none
  | .cons _ _ v _, 0 => some v
  | .cons _ _ _ rest, n + 1 => Fields.get? rest n

/-- Write a struct field by index (the engine mutates the field in
place). -/
def Fields.setVal : Fields → Nat → RVal → Fields
  | .nil, _, _ => .nil
  | .cons n t _ rest, 0, w => .cons n t w rest
  | .cons n t v rest, i + 1, w => .cons n t v (Fields.setVal rest i w)

end GoLLSD

namespace GoLLSD

/-- The scalar-dispatch switch of `Unmarshaler.scalar` (`decode.go`), after
the custom-hook check and the pointer unwrap.  `text` selects the decoder
pair, `off` is `u.scan.Offset()` at the time the token was read, and `v` is
the (non-pointer-unwrapped) destination.  `reflect.Value.Set` with a
non-assignable value and out-of-range slicing are modelled as `Res.crash`,
exactly where the Go code panics; note that `llsd.URL` and `string` are
distinct named Go types and mutually non-assignable, so the URI case
(`v.Set` of a `URL`) panics on a plain string destination and the String
case (`v.Set` of a `string`) panics on a `URL` destination, whereas the
Boolean, Binary and Date cases use the kind-based `SetString` and accept
both. -/
def scalarNonPtr (text : Bool) (off : Int) (ty : ScalarType) (data : List Byte)
    (attr : List (String × String)) (v : RVal) : Res RVal :=
  match ty with
  | .real =>
    match v with
    | .vF32 _ => do
      let bits ← decReal text data
      if f64OverflowsF32Ext bits then
        .err (.unmarshalType ("real " ++ strOfBytes data) v.typeName off)
      else .ok (.vF32 (f32OfF64BitsExt bits))
    | .vF64 _ => do
      let bits ← decReal text data
      .ok (.vF64 bits)
    | .vIfaceNil | .vIface _ => do
      let bits ← decReal text data
      .ok (.vIface (.vF64 bits))
    | _ => .err (.unmarshalType ("real " ++ strOfBytes data) v.typeName off)
  | .integer =>
    match v with
    | .vInt k _ => do
      let value ← decInteger text data
      if overflowInt k value then
        .err (.unmarshalType ("integer " ++ strOfBytes data) v.typeName off)
      else .ok (.vInt k value)
    | .vIfaceNil | .vIface _ => do
      let value ← decInteger text data
      .ok (.vIface (.vInt .i32 (wrapInt 32 value)))
    | _ => .err (.unmarshalType ("integer " ++ strOfBytes data) v.typeName off)
  | .uri =>
    match v with
    | .vURL _ => .ok (.vURL (strOfBytes data))
    | .vIfaceNil | .vIface _ => .ok (.vIface (.vURL (strOfBytes data)))
    | _ =>
      .crash ("reflect.Set: value of type llsd.URL is not assignable to type " ++ v.typeName)
  | .str =>
    match v with
    | .vString _ => .ok (.vString (strOfBytes data))
    | .vURL _ =>
      .crash "reflect.Set: value of type string is not assignable to type llsd.URL"
    | .vIfaceNil | .vIface _ => .ok (.vIface (.vString (strOfBytes data)))
    | _ => .err (.unmarshalType ("string " ++ strOfBytes data) v.typeName off)
  | .boolean =>
    match v with
    | .vBool _ => do
      let value ← decBoolean text data
      .ok (.vBool value)
    | .vIfaceNil | .vIface _ => do
      let value ← decBoolean text data
      .ok (.vIface (.vBool value))
    | .vString _ => do
      let value ← decBoolean text data
      .ok (.vString (if value then "true" else "false"))
    | .vURL _ => do
      let value ← decBoolean text data
      .ok (.vURL (if value then "true" else "false"))
    | _ => .err (.unmarshalType ("boolean " ++ strOfBytes data) v.typeName off)
  | .binary =>
    let encoding := if text then (attrGet attr "encoding").getD Base16 else ""
    (decBinary text data encoding).bind fun value =>
      match v with
      | .vBytes _ => .ok (.vBytes value)
      | .vByteArr n bs => .ok (.vByteArr n (copyBytes bs value))
      | .vUUID bs => .ok (.vUUID (copyBytes bs value))
      | .vSlice _ _ =>
        .err (.unmarshalType ("binary " ++ strOfBytes data) v.typeName off)
      | .vArr _ _ =>
        .err (.unmarshalType ("binary " ++ strOfBytes data) v.typeName off)
      | .vIfaceNil | .vIface _ => .ok (.vIface (.vBytes value))
      | .vString _ => .ok (.vString (strOfBytes value))
      | .vURL _ => .ok (.vURL (strOfBytes value))
      | .vBool _ => .ok (.vBool (decide (0 < data.length)))
      | .vUint .u _ | .vUint .u32 _ =>
        if value.length < 4 then
          .err (.unmarshalType ("binary (too few bytes) " ++ strOfBytes data) v.typeName off)
        else
          match v with
          | .vUint k _ => .ok (.vUint k (beU32 value))
          | _ => .crash "unreachable"
      | .vF32 _ =>
        if value.length < 4 then .crash "runtime error: slice bounds out of range"
        else .ok (.vF32 (beU32 value))
      | .vInt .i _ | .vInt .i32 _ =>
        if value.length < 4 then
          .err (.unmarshalType ("binary (too few bytes) " ++ strOfBytes data) v.typeName off)
        else
          match v with
          | .vInt k _ => .ok (.vInt k (wrapInt k.bits (beU32 value)))
          | _ => .crash "unreachable"
      | .vInt .i64 _ =>
        if value.length < 8 then
          .err (.unmarshalType ("binary (too few bytes) " ++ strOfBytes data) v.typeName off)
        else .ok (.vInt .i64 (wrapInt 64 (beU64 value)))
      | .vUint .u64 _ =>
        if value.length < 8 then
          .err (.unmarshalType ("binary (too few bytes) " ++ strOfBytes data) v.typeName off)
        else .ok (.vUint .u64 (beU64 value))
      | .vF64 _ =>
        if value.length < 8 then
          .err (.unmarshalType ("binary (too few bytes) " ++ strOfBytes data) v.typeName off)
        else .ok (.vF64 (beU64 value))
      | _ => .err (.unmarshalType ("binary " ++ strOfBytes data) v.typeName off)
  | .date =>
    match v with
    | .vF32 _ => do
      let sec ← decDate text data
      let epoch := f64BitsOfIntExt sec
      if f64OverflowsF32Ext epoch then
        .err (.unmarshalType ("date " ++ strOfBytes data) v.typeName off)
      else .ok (.vF32 (f32OfF64BitsExt epoch))
    | .vF64 _ => do
      let sec ← decDate text data
      .ok (.vF64 (f64BitsOfIntExt sec))
    | .vInt k _ => do
      let sec ← decDate text data
      if overflowInt k sec then
        .err (.unmarshalType ("date " ++ strOfBytes data) v.typeName off)
      else .ok (.vInt k sec)
    | .vString _ => .ok (.vString (strOfBytes data))
    | .vURL _ => .ok (.vURL (strOfBytes data))
    | .vIfaceNil | .vIface _ => do
      let sec ← decDate text data
      .ok (.vIface (.vTime sec))
    | .vTime _ => do
      let sec ← decDate text data
      .ok (.vTime sec)
    | _ => .err (.unmarshalType ("date " ++ strOfBytes data) v.typeName off)
  | .undefined => .ok v
  | .uuidType => .ok v

/-- The `Unmarshaler.scalar` method (`decode.go`): custom hooks (none of the
modelled destination types implements them), the pointer unwrap — `Undef`
leaves a pointer untouched, any other scalar allocates a nil pointee — and
then the dispatch switch. -/
def scalar (text : Bool) (off : Int) (ty : ScalarType) (data : List Byte)
    (attr : List (String × String)) (v : RVal) : Res RVal :=
  match v with
  | .vPtr proto isNil =>
    if ty = .undefined then .ok (.vPtr proto isNil)
    else
      let elem := if isNil then zeroOf proto else proto
      match scalarNonPtr text off ty data attr elem with
      | .ok r => .ok (.vPtr r false)
      | .err e => .err e
      | .crash m => .crash m
  | _ => scalarNonPtr text off ty data attr v

end GoLLSD

namespace GoLLSD

/-- Element read `v.Index i`. -/
def RVals.get? : RVals → Nat → Option RVal
  | .nil, _ => none
  | .cons v _, 0 => some v
  | .cons _ rest, n + 1 => RVals.get? rest n

/-- In-place element write. -/
def RVals.set : RVals → Nat → RVal → RVals
  | .nil, _, _ => .nil
  | .cons _ rest, 0, w => .cons w rest
  | .cons v rest, n + 1, w => .cons v (RVals.set rest n w)

/-- Append one element (`v.SetLen (i+1)` after growth: the new slot is the
element type's zero value). -/
def RVals.append1 : RVals → RVal → RVals
  | .nil, w => .cons w .nil
  | .cons v rest, w => .cons v (RVals.append1 rest w)

/-- Go `v.SetMapIndex`: replace an existing key's entry, else append. -/
def Entries.upsert : Entries → String → RVal → Entries
  | .nil, k, w => .cons k w .nil
  | .cons k0 v rest, k, w =>
    if k0 = k then .cons k w rest else .cons k0 v (Entries.upsert rest k w)

/-- The token source seen by the engine: the already-produced token stream,
each token paired with the scanner offset after reading it, plus the
current offset (`u.scan.Offset()`).  This mirrors `mockTokenReader` in
`decode_test.go`; for the real scanners the pairs are produced by the
tokenizer drivers below. -/
structure Scan where
  items : List (Token × Int)
  off : Int
deriving DecidableEq, Repr

/-- One `TokenReader.Token()` call: pop a token (EOF when exhausted). -/
def Scan.token : Scan → Res Token × Scan
  | ⟨[], off⟩ => (.err .eof, ⟨[], off⟩)
  | ⟨(t, o) :: rest, _⟩ => (.ok t, ⟨rest, o⟩)

/-- Tail of the interface branch of `Unmarshaler.array`: after the recursive
`u.array(newv)` call the Go code falls through into the element loop while
the destination is still the interface value, so it reads one more token;
`ArrayEnd` returns, anything else reaches `v.Len()` on an interface value,
which panics. -/
def ifaceArrayTail (s : Scan) : Res (RVal × Scan) :=
  let p := s.token
  p.fst.bind fun tok =>
    match tok with
    | .arrayEnd => .ok (.vIface (.vSlice .vIfaceNil .nil), p.snd)
    | _ => .crash "reflect: call of reflect.Value.Len on interface Value"

mutual

/-- The `Unmarshaler.value` dispatch (`decode.go`): `tok` is the last read
token (`u.tok`), `v = none` models an invalid `reflect.Value` (in which
case container and scalar tokens are ignored without draining). -/
def valueF : Nat → Bool → Bool → Token → Scan → Option RVal → Res (Option RVal × Scan)
  | 0, _, _, _, _, _ => .crash "model: out of fuel"
  | fu + 1, text, dis, tok, s, v =>
    match tok with
    | .mapStart =>
      match v with
      | some dst => (objectF fu text dis s dst).bind fun r => .ok (some r.fst, r.snd)
      | none => .ok (none, s)
    | .arrayStart =>
      match v with
      | some dst => (arrayF fu text dis s dst).bind fun r => .ok (some r.fst, r.snd)
      | none => .ok (none, s)
    | .scalar ty data attr =>
      match v with
      | some dst => (scalar text s.off ty data attr dst).bind fun d => .ok (some d, s)
      | none => .ok (none, s)
    | _ => .err (.invalid ("unexpected " ++ tok.typeName) s.off)

/-- The pointer unwrap at the head of `Unmarshaler.object`. -/
def objectF : Nat → Bool → Bool → Scan → RVal → Res (RVal × Scan)
  | 0, _, _, _, _ => .crash "model: out of fuel"
  | fu + 1, text, dis, s, v =>
    match v with
    | .vPtr proto isNil =>
      let elem := if isNil then zeroOf proto else proto
      (objectCore fu text dis s elem).bind fun r => .ok (.vPtr r.fst false, r.snd)
    | _ => objectCore fu text dis s v

/-- The kind switch of `Unmarshaler.object`.  The modelled maps are always
string-keyed, so the non-string-key `UnmarshalTypeError "map "` branch is
unreachable in the model. -/
def objectCore : Nat → Bool → Bool → Scan → RVal → Res (RVal × Scan)
  | 0, _, _, _, _ => .crash "model: out of fuel"
  | fu + 1, text, dis, s, v =>
    match v with
    | .vStruct fs =>
      (structLoop fu text dis (fieldsFor fs) fs s).bind fun r => .ok (.vStruct r.fst, r.snd)
    | .vMap proto entries =>
      (mapLoop fu text dis proto entries s).bind fun r => .ok (.vMap proto r.fst, r.snd)
    | _ => .err (.unmarshalType "object" v.typeName s.off)

/-- The struct loop of `Unmarshaler.object`: read a key (or `MapEnd`), look
it up in the field table; an unknown key errors under
`DisallowUnknownFields` and otherwise skips exactly one token (`u.next()`)
before continuing. -/
def structLoop : Nat → Bool → Bool → List FieldDesc → Fields → Scan → Res (Fields × Scan)
  | 0, _, _, _, _, _ => .crash "model: out of fuel"
  | fu + 1, text, dis, fieldTable, fs, s =>
    let p := s.token
    p.fst.bind fun tok =>
      match tok with
      | .key k =>
        match fieldTable.find? (fun f => f.wireName = k) with
        | none =>
          if dis then .err (.plain ("LLSD: Unknown field \"" ++ k ++ "\""))
          else
            let p2 := p.snd.token
            p2.fst.bind fun _ => structLoop fu text dis fieldTable fs p2.snd
        | some fd =>
          let p2 := p.snd.token
          p2.fst.bind fun tok2 =>
            match Fields.get? fs fd.index with
            | none => .crash "model: field index out of range"
            | some fv =>
              (valueF fu text dis tok2 p2.snd (some fv)).bind fun r =>
                match r.fst with
                | some fv2 =>
                  structLoop fu text dis fieldTable (Fields.setVal fs fd.index fv2) r.snd
                | none => structLoop fu text dis fieldTable fs r.snd
      | .mapEnd => .ok (fs, p.snd)
      | _ =>
        .err (.invalid ("expected map to start with key, got " ++ tok.typeName) p.snd.off)

/-- The map loop of `Unmarshaler.object`: fresh zero-valued slot per entry,
decode into it, insert under the key. -/
def mapLoop : Nat → Bool → Bool → RVal → Entries → Scan → Res (Entries × Scan)
  | 0, _, _, _, _, _ => .crash "model: out of fuel"
  | fu + 1, text, dis, proto, entries, s =>
    let p := s.token
    p.fst.bind fun tok =>
      match tok with
      | .key k =>
        let subv := zeroOf proto
        let p2 := p.snd.token
        p2.fst.bind fun tok2 =>
          (valueF fu text dis tok2 p2.snd (some subv)).bind fun r =>
            match r.fst with
            | some sv => mapLoop fu text dis proto (entries.upsert k sv) r.snd
            | none => mapLoop fu text dis proto entries r.snd
      | .mapEnd => .ok (entries, p.snd)
      | _ =>
        .err (.invalid ("expected map to start with key, got " ++ tok.typeName) p.snd.off)

/-- The pointer unwrap at the head of `Unmarshaler.array`. -/
def arrayF : Nat → Bool → Bool → Scan → RVal → Res (RVal × Scan)
  | 0, _, _, _, _ => .crash "model: out of fuel"
  | fu + 1, text, dis, s, v =>
    match v with
    | .vPtr proto isNil =>
      let elem := if isNil then zeroOf proto else proto
      (arrayCore fu text dis s elem).bind fun r => .ok (.vPtr r.fst false, r.snd)
    | _ => arrayCore fu text dis s v

/-- The kind switch of `Unmarshaler.array`.  The interface branch sets a
fresh unaddressable `[]any` into the destination, recurses into it, and
then falls through into the element loop (see `ifaceArrayTail`). -/
def arrayCore : Nat → Bool → Bool → Scan → RVal → Res (RVal × Scan)
  | 0, _, _, _, _ => .crash "model: out of fuel"
  | fu + 1, text, dis, s, v =>
    match v with
    | .vSlice proto elems =>
      (sliceLoop fu text dis proto elems true 0 s).bind fun r =>
        .ok (.vSlice proto r.fst, r.snd)
    | .vArr proto elems =>
      (arrFixedLoop fu text dis elems 0 s).bind fun r => .ok (.vArr proto r.fst, r.snd)
    | .vIfaceNil | .vIface _ =>
      (sliceLoop fu text dis .vIfaceNil .nil false 0 s).bind fun r => ifaceArrayTail r.snd
    | _ => .err (.unmarshalType "array" v.typeName s.off)

/-- The element loop of `Unmarshaler.array` for slice destinations; growth
(`reflect.MakeSlice` + `v.Set`) panics when the destination is not
addressable. -/
def sliceLoop : Nat → Bool → Bool → RVal → RVals → Bool → Nat → Scan → Res (RVals × Scan)
  | 0, _, _, _, _, _, _, _ => .crash "model: out of fuel"
  | fu + 1, text, dis, proto, elems, addressable, i, s =>
    let p := s.token
    p.fst.bind fun tok =>
      match tok with
      | .arrayEnd => .ok (elems, p.snd)
      | _ =>
        let grown : Res RVals :=
          if RVals.length elems ≤ i then
            if addressable then .ok (RVals.append1 elems (zeroOf proto))
            else .crash "reflect: reflect.Value.Set using unaddressable value"
          else .ok elems
        grown.bind fun es =>
          match RVals.get? es i with
          | some ev =>
            (valueF fu text dis tok p.snd (some ev)).bind fun r =>
              match r.fst with
              | some ev2 =>
                sliceLoop fu text dis proto (RVals.set es i ev2) addressable (i + 1) r.snd
              | none => sliceLoop fu text dis proto es addressable (i + 1) r.snd
          | none => .crash "model: slice index out of range"

/-- The element loop of `Unmarshaler.array` for fixed-size array
destinations: elements beyond the array length are decoded into an invalid
destination. -/
def arrFixedLoop : Nat → Bool → Bool → RVals → Nat → Scan → Res (RVals × Scan)
  | 0, _, _, _, _, _ => .crash "model: out of fuel"
  | fu + 1, text, dis, elems, i, s =>
    let p := s.token
    p.fst.bind fun tok =>
      match tok with
      | .arrayEnd => .ok (elems, p.snd)
      | _ =>
        if i < RVals.length elems then
          match RVals.get? elems i with
          | some ev =>
            (valueF fu text dis tok p.snd (some ev)).bind fun r =>
              match r.fst with
              | some ev2 => arrFixedLoop fu text dis (RVals.set elems i ev2) (i + 1) r.snd
              | none => arrFixedLoop fu text dis elems (i + 1) r.snd
          | none => .crash "model: array index out of range"
        else
          (valueF fu text dis tok p.snd none).bind fun r =>
            arrFixedLoop fu text dis elems (i + 1) r.snd

end

/-- The `Unmarshaler.Unmarshal` entry point of `decode.go`: the caller
passes a pointer to the destination (modelled as a non-nil `vPtr` around
`dst`), the engine reads the first token and dispatches `value` on it.
There is no document-start handling of any kind in this revision. -/
def unmarshalF (fuel : Nat) (text dis : Bool) (s : Scan) (dst : RVal) : Res (RVal × Scan) :=
  let p := s.token
  p.fst.bind fun tok =>
    (valueF fuel text dis tok p.snd (some (.vPtr dst false))).bind fun r =>
      match r.fst with
      | some (.vPtr d _) => .ok (d, r.snd)
      | _ => .crash "model: unexpected engine result"

/-- Token stream of `decode_test.go`'s `mockTokenReader`: offsets count
tokens, starting at 1. -/
def mockScan (toks : List Token) : Scan :=
  ⟨toks.enum.map (fun p => (p.snd, (p.fst : Int) + 1)), 0⟩

end GoLLSD

namespace GoLLSD

/-- Binary scanner state: remaining bytes and the current offset. -/
abbrev BinSt := List Byte × Int

/-- The binary header constant. -/
def BinaryHeader : String := "<?llsd/binary?>\n"

/-- The `BinaryScanner.read` helper over a `bytes.Reader`: a single `Read`
call fills as many bytes as are available and leaves the rest of the buffer
zero (the scanner ignores the returned count); `io.EOF` is reported only
when no byte is available at all.  The offset advances by the full request
either way. -/
def binRead (st : BinSt) (num : Nat) : Res (List Byte) × BinSt :=
  let buf := st.fst.take num ++ List.replicate (num - st.fst.length) 0
  let st2 : BinSt := (st.fst.drop num, st.snd + (num : Int))
  if st.fst.length = 0 then (.err .eof, st2) else (.ok buf, st2)

/-- Dispatch of `BinaryScanner.Token` on an op byte other than the header
introducer. -/
def binOpDispatch (op : Byte) (st : BinSt) : Res (Token × BinSt) :=
  if op = 105 then
    let p := binRead st 4
    p.fst.bind fun buf => .ok (.scalar .integer buf [], p.snd)
  else if op = 114 then
    let p := binRead st 8
    p.fst.bind fun buf => .ok (.scalar .real buf [], p.snd)
  else if op = 117 then
    let p := binRead st 16
    p.fst.bind fun buf => .ok (.scalar .uuidType buf [], p.snd)
  else if op = 98 then
    let p := binRead st 4
    p.fst.bind fun sz =>
      let p2 := binRead p.snd (beU32 sz)
      p2.fst.bind fun buf => .ok (.scalar .binary buf [], p2.snd)
  else if op = 115 then
    let p := binRead st 4
    p.fst.bind fun sz =>
      let p2 := binRead p.snd (beU32 sz)
      p2.fst.bind fun buf => .ok (.scalar .str buf [], p2.snd)
  else if op = 100 then
    let p := binRead st 4
    p.fst.bind fun buf => .ok (.scalar .date buf [], p.snd)
  else if op = 107 then
    let p := binRead st 4
    p.fst.bind fun sz =>
      let p2 := binRead p.snd (beU32 sz)
      p2.fst.bind fun buf => .ok (.key (strOfBytes buf), p2.snd)
  else if op = 123 then
    let p := binRead st 4
    p.fst.bind fun _ => .ok (.mapStart, p.snd)
  else if op = 125 then .ok (.mapEnd, st)
  else if op = 91 then
    let p := binRead st 4
    p.fst.bind fun _ => .ok (.arrayStart, p.snd)
  else if op = 93 then .ok (.arrayEnd, st)
  else if op = 49 then .ok (.scalar .boolean [1] [], st)
  else if op = 48 then .ok (.scalar .boolean [] [], st)
  else if op = 33 then .ok (.scalar .undefined [] [], st)
  else .err (.plain ("Invalid LLSD " ++ strOfBytes [op]))

/-- The `BinaryScanner.Token` method (`binary_scan.go`): read one op byte;
a `<` at offset 1 reads and checks the 15 remaining header bytes and then
continues with the next op (a second header is impossible because the
offset is then 16, so the `<` falls to the default error). -/
def binToken (st : BinSt) : Res (Token × BinSt) :=
  let p := binRead st 1
  p.fst.bind fun op =>
    let b := op.headD 0
    if b = 60 then
      if p.snd.snd = 1 then
        let p2 := binRead p.snd 15
        p2.fst.bind fun buf =>
          let header := "<" ++ strOfBytes buf
          if header = BinaryHeader then
            let p3 := binRead p2.snd 1
            p3.fst.bind fun op2 =>
              let b2 := op2.headD 0
              if b2 = 60 then .err (.plain ("Invalid LLSD " ++ strOfBytes op2))
              else binOpDispatch b2 p3.snd
          else .err (.plain ("Invalid LLSD: unrecognized header " ++ header))
      else .err (.plain ("Invalid LLSD " ++ strOfBytes op))
    else binOpDispatch b p.snd

/-- Run the binary scanner to exhaustion, pairing each token with the
scanner offset after reading it.  The engine consumes tokens lazily in Go;
pre-tokenizing is observationally equal on the inputs used here: when the
scanner reports `io.EOF` the list simply ends, and the engine model
reproduces the EOF error if it reads past the end. -/
def binTokens : Nat → BinSt → Res (List (Token × Int))
  | 0, _ => .crash "model: out of fuel"
  | fu + 1, st =>
    if st.fst.length = 0 then .ok []
    else
      match binToken st with
      | .ok r =>
        (binTokens fu r.snd).bind fun rest => .ok ((r.fst, r.snd.snd) :: rest)
      | .err .eof => .ok []
      | .err e => .err e
      | .crash m => .crash m

/-- The `UnmarshalBinary` facade: binary scanner, binary scalar decoder,
`text = false`, `DisallowUnknownFields` off. -/
def unmarshalBinaryModel (fuel : Nat) (data : List Byte) (dst : RVal) : Res (RVal × Scan) :=
  (binTokens fuel (data, 0)).bind fun toks => unmarshalF fuel false false ⟨toks, 0⟩ dst

/-- Events of the underlying streaming XML parser (`encoding/xml`, an
external collaborator per spec §1): start element with attributes, end
element, character data, comments and processing instructions.  A
self-closing element is delivered as a start element followed immediately
by its end element, exactly as `encoding/xml` does. -/
inductive XmlEvent where
  | start (nm : String) (attrs : List (String × String))
  | endEl (nm : String)
  | chars (s : String)
  | comment
  | procInst
deriving DecidableEq, Repr

/-- The `XMLScanner.charData` helper: next parser event must be character
data (inner text) or an end element (self-closing form). -/
def xmlCharData : List XmlEvent → Res (Option String × List XmlEvent)
  | [] => .err .eof
  | .chars s :: rest => .ok (some s, rest)
  | .endEl _ :: rest => .ok (none, rest)
  | _ :: _ => .err (.plain "Invalid LLSD: got unexpected event")

/-- The scalar element-name table of `XMLScanner.Token`. -/
def xmlScalarType (nm : String) : Option ScalarType :=
  if nm = "string" then some .str
  else if nm = "real" then some .real
  else if nm = "uuid" then some .uuidType
  else if nm = "integer" then some .integer
  else if nm = "boolean" then some .boolean
  else if nm = "undef" then some .undefined
  else if nm = "binary" then some .binary
  else if nm = "uri" then some .uri
  else if nm = "date" then some .date
  else none

/-- The `XMLScanner.Token` method, in the revision that silently skips the
`llsd` document element (the revision consistent with `decode.go`'s
`Unmarshal`, which has no `DocumentStart` handling; the sibling revision in
`xml_scan.go` returns `DocumentStart`/`DocumentEnd` instead).  Comments,
processing instructions and stray character data are skipped; `key` and
expanded scalar elements consume their end-element event; a self-closing
scalar does not consume a further event. -/
def xmlToken : List XmlEvent → Res (Token × List XmlEvent)
  | [] => .err .eof
  | .start nm attrs :: rest =>
    if nm = "array" then .ok (.arrayStart, rest)
    else if nm = "map" then .ok (.mapStart, rest)
    else if nm = "key" then
      (xmlCharData rest).bind fun r =>
        match r.snd, r.fst with
        | rest2, some s =>
          match rest2 with
          | [] => .err .eof
          | _ :: rest3 => .ok (.key s, rest3)
        | rest2, none =>
          match rest2 with
          | [] => .err .eof
          | _ :: rest3 => .ok (.key "", rest3)
    else if nm = "llsd" then xmlToken rest
    else
      match xmlScalarType nm with
      | none => .err (.plain ("Unknown LLSD type \"" ++ nm ++ "\""))
      | some ty =>
        (xmlCharData rest).bind fun r =>
          match r.fst with
          | some s =>
            match r.snd with
            | [] => .err .eof
            | _ :: rest3 => .ok (.scalar ty (bytesOfStr s) attrs, rest3)
          | none => .ok (.scalar ty [] attrs, r.snd)
  | .endEl nm :: rest =>
    if nm = "array" then .ok (.arrayEnd, rest)
    else if nm = "map" then .ok (.mapEnd, rest)
    else if nm = "llsd" then xmlToken rest
    else .err (.plain ("Invalid LLSD: unexpected EndElement " ++ nm))
  | .chars _ :: rest => xmlToken rest
  | .comment :: rest => xmlToken rest
  | .procInst :: rest => xmlToken rest

/-- Run the XML scanner to exhaustion (`io.EOF` ends the list, as in
`binTokens`).  Offsets stand in for `xml.Decoder.InputOffset` as the count
of consumed parser events; no claim depends on XML offsets. -/
def xmlTokens : Nat → Nat → List XmlEvent → Res (List (Token × Int))
  | 0, _, _ => .crash "model: out of fuel"
  | fu + 1, total, evs =>
    match evs with
    | [] => .ok []
    | _ =>
      match xmlToken evs with
      | .ok r =>
        (xmlTokens fu total r.snd).bind fun rest =>
          .ok ((r.fst, ((total - r.snd.length : Nat) : Int)) :: rest)
      | .err .eof => .ok []
      | .err e => .err e
      | .crash m => .crash m

/-- The `UnmarshalXML` facade: XML scanner, text scalar decoder,
`text = true`, `DisallowUnknownFields` off. -/
def unmarshalXMLModel (fuel : Nat) (evs : List XmlEvent) (dst : RVal) : Res (RVal × Scan) :=
  (xmlTokens fuel evs.length evs).bind fun toks => unmarshalF fuel true false ⟨toks, 0⟩ dst

end GoLLSD

namespace GoLLSD

/-- Number of map entries. -/
def Entries.length : Entries → Nat
  | .nil => 0
  | .cons _ _ rest => Entries.length rest + 1

/-- Go `xml.EscapeText` on one character. -/
def xmlEscapeChar (c : Char) : String :=
  if c = '&' then "&amp;"
  else if c = '<' then "&lt;"
  else if c = '>' then "&gt;"
  else if c = '\'' then "&#39;"
  else if c = '"' then "&#34;"
  else if c = '\t' then "&#x9;"
  else if c = '\n' then "&#xA;"
  else if c = '\r' then "&#xD;"
  else String.mk [c]

/-- Go `xml.EscapeText`. -/
def xmlEscape (s : String) : String :=
  String.join (s.toList.map xmlEscapeChar)

/-- The `isEmptyValue` helper of the encoder.  Negative floating-point zero
is not modelled (no claim exercises `omitempty` on floats). -/
def isEmptyValue : RVal → Bool
  | .vBool b => !b
  | .vInt _ x => x == 0
  | .vUint _ x => x == 0
  | .vF32 bits => bits == 0
  | .vF64 bits => bits == 0
  | .vString s => s == ""
  | .vURL s => s == ""
  | .vBytes bs => bs.length == 0
  | .vByteArr n _ => n == 0
  | .vUUID _ => false
  | .vTime _ => false
  | .vSlice _ elems => RVals.length elems == 0
  | .vArr _ elems => RVals.length elems == 0
  | .vMap _ entries => Entries.length entries == 0
  | .vStruct _ => false
  | .vPtr _ isNil => isNil
  | .vIfaceNil => true
  | .vIface _ => false

/-- The `writeIndent` helper: nothing in compact mode, else a newline and
the indent string repeated `depth` times. -/
def writeIndent (indent : String) (depth : Nat) : String :=
  if indent = "" then "" else "\n" ++ String.join (List.replicate depth indent)

/-- The `XMLEncoder.writeBytes` helper: uppercase hex for base16, padded
standard base64, XML-escaped ascii85. -/
def writeBytes (b : List Byte) (encoding : String) : Res String :=
  if encoding = Base16 then .ok (hexEncodeUpper b)
  else if encoding = Base64 then .ok (base64Encode b)
  else if encoding = Base85 then .ok (xmlEscape (ascii85EncodeExt b))
  else .err (.plain ("Unknown encoding " ++ encoding))

/-- The byte-sequence branch of `marshalValue`: effective encoding is the
field tag's encoding when present and nonempty, else base16; the
`encoding` attribute is emitted exactly when the effective encoding is not
base16. -/
def marshalBytesElem (indent : String) (depth : Nat) (bs : List Byte)
    (info : Option GoTag) : Res String :=
  let encoding :=
    match info with
    | some t => if t.encoding ≠ "" then t.encoding else Base16
    | none => Base16
  (writeBytes bs encoding).bind fun payload =>
    .ok (writeIndent indent depth ++
      (if encoding = Base16 then "<binary>"
       else "<binary encoding=\"" ++ encoding ++ "\">") ++
      payload ++ "</binary>")

mutual

/-- The `XMLEncoder.marshalValue` method (`decode.go`, encoder half):
hook check (vacuous in the model), `omitempty` guard, nil-pointer to
`<undef />`, pointer unwrap, then the kind switch in `marshalKind`. -/
def marshalValue (fuel : Nat) (indent : String) (depth : Nat) (v : RVal)
    (info : Option GoTag) : Res String :=
  match fuel with
  | 0 => .crash "model: out of fuel"
  | fu + 1 =>
    if ((info.map (fun t => t.omitEmpty)).getD false && isEmptyValue v) then .ok ""
    else
      match v with
      | .vPtr proto isNil =>
        if isNil then .ok (writeIndent indent depth ++ "<undef />")
        else marshalKind fu indent depth proto info
      | _ => marshalKind fu indent depth v info
termination_by structural fuel

/-- The kind switch of `marshalValue`.  Faithful quirks of the source:
`time.Time` has struct kind, so it is rendered as an (empty) `<map>` by the
struct case and never reaches the `<date>` branch; a `UUID` has array-of-
byte kind and is rendered as `<binary>`; `int64`/`uint64` kinds are missing
from the integer case lists and fall to the default `MarshalTypeError`. -/
def marshalKind (fuel : Nat) (indent : String) (depth : Nat) (v : RVal)
    (info : Option GoTag) : Res String :=
  match fuel with
  | 0 => .crash "model: out of fuel"
  | fu + 1 =>
    match v with
    | .vIfaceNil => .ok ""
    | .vIface inner => marshalValue fu indent depth inner none
    | .vStruct fs =>
      (marshalFieldsLoop fu indent (depth + 1) fs (fieldsFor fs)).bind fun inner =>
        .ok (writeIndent indent depth ++ "<map>" ++ inner ++
          writeIndent indent depth ++ "</map>")
    | .vTime _ =>
      .ok (writeIndent indent depth ++ "<map>" ++ writeIndent indent depth ++ "</map>")
    | .vMap _ entries =>
      (marshalEntriesLoop fu indent (depth + 1) entries).bind fun inner =>
        .ok (writeIndent indent depth ++ "<map>" ++ inner ++
          writeIndent indent (depth + 1) ++ "</map>")
    | .vBytes bs => marshalBytesElem indent depth bs info
    | .vByteArr _ bs => marshalBytesElem indent depth bs info
    | .vUUID bs => marshalBytesElem indent depth bs info
    | .vSlice _ elems =>
      (marshalElemsLoop fu indent (depth + 1) elems).bind fun inner =>
        .ok (writeIndent indent depth ++ "<array>" ++ inner ++ "</array>")
    | .vArr _ elems =>
      (marshalElemsLoop fu indent (depth + 1) elems).bind fun inner =>
        .ok (writeIndent indent depth ++ "<array>" ++ inner ++ "</array>")
    | .vString s =>
      .ok (writeIndent indent depth ++ "<string>" ++ xmlEscape s ++ "</string>")
    | .vURL s =>
      .ok (writeIndent indent depth ++ "<uri>" ++ xmlEscape s ++ "</uri>")
    | .vInt k x =>
      if k = .i64 then .err (.marshalType k.tyName)
      else .ok (writeIndent indent depth ++ "<integer>" ++ toString x ++ "</integer>")
    | .vUint k x =>
      if k = .u64 then .err (.marshalType k.tyName)
      else .ok (writeIndent indent depth ++ "<integer>" ++ toString x ++ "</integer>")
    | .vF32 bits =>
      .ok (writeIndent indent depth ++ "<real>" ++ floatFormatExt bits ++ "</real>")
    | .vF64 bits =>
      .ok (writeIndent indent depth ++ "<real>" ++ floatFormatExt bits ++ "</real>")
    | .vBool b =>
      .ok (writeIndent indent depth ++ "<boolean>" ++ (if b then "1" else "0") ++ "</boolean>")
    | .vPtr _ _ => .err (.marshalType v.typeName)
termination_by structural fuel

/-- The struct-field loop of `marshalValue`: iterate the cached field
table, skipping omitted, unexported (none modelled) and empty `omitempty`
fields. -/
def marshalFieldsLoop (fuel : Nat) (indent : String) (depth : Nat) (fs : Fields)
    (descs : List FieldDesc) : Res String :=
  match fuel with
  | 0 => .crash "model: out of fuel"
  | fu + 1 =>
    match descs with
    | [] => .ok ""
    | d :: rest =>
      if d.tag.omitted then marshalFieldsLoop fu indent depth fs rest
      else
        match Fields.get? fs d.index with
        | none => .crash "model: field index out of range"
        | some subv =>
          if d.tag.omitEmpty && isEmptyValue subv then
            marshalFieldsLoop fu indent depth fs rest
          else
            (marshalValue fu indent depth subv (some d.tag)).bind fun sv =>
              (marshalFieldsLoop fu indent depth fs rest).bind fun restS =>
                .ok (writeIndent indent depth ++ "<key>" ++ d.wireName ++ "</key>" ++
                  sv ++ restS)
termination_by structural fuel

/-- The map-entry loop of `marshalValue` (keys XML-escaped; Go's random map
iteration order is modelled as entry order). -/
def marshalEntriesLoop (fuel : Nat) (indent : String) (depth : Nat)
    (entries : Entries) : Res String :=
  match fuel with
  | 0 => .crash "model: out of fuel"
  | fu + 1 =>
    match entries with
    | .nil => .ok ""
    | .cons k v rest =>
      (marshalValue fu indent depth v none).bind fun sv =>
        (marshalEntriesLoop fu indent depth rest).bind fun restS =>
          .ok (writeIndent indent depth ++ "<key>" ++ xmlEscape k ++ "</key>" ++ sv ++ restS)
termination_by structural fuel

/-- The array-element loop of `marshalValue`. -/
def marshalElemsLoop (fuel : Nat) (indent : String) (depth : Nat)
    (elems : RVals) : Res String :=
  match fuel with
  | 0 => .crash "model: out of fuel"
  | fu + 1 =>
    match elems with
    | .nil => .ok ""
    | .cons v rest =>
      (marshalValue fu indent depth v none).bind fun sv =>
        (marshalElemsLoop fu indent depth rest).bind fun restS => .ok (sv ++ restS)
termination_by structural fuel

end

/-- Go's `xml.Header` constant. -/
def xmlHeaderStr : String := "<?xml version=\"1.0\" encoding=\"UTF-8\"?>\n"

/-- The `XMLEncoder.Encode` method: XML header, `<llsd>`, the value at
depth 1, a depth-0 indent, `</llsd>`.  `MarshalXML` uses an empty indent;
a non-nil pointer destination unwraps to the same output as passing the
pointee. -/
def encodeModel (fuel : Nat) (indent : String) (v : RVal) : Res String :=
  (marshalValue fuel indent 1 v none).bind fun body =>
    .ok (xmlHeaderStr ++ "<llsd>" ++ body ++ writeIndent indent 0 ++ "</llsd>")

end GoLLSD

namespace GoLLSD

deriving instance DecidableEq for RVal

/-- Pointer-kind test on destinations. -/
def RVal.isPtr : RVal → Bool
  | .vPtr _ _ => true
  | _ => false

/-- Test for the named `URL` destination type. -/
def RVal.isURL : RVal → Bool
  | .vURL _ => true
  | _ => false

/-- Conversion matrix of spec §4.3, written from the spec's table (a
spec-side definition, used only to compare the spec against the code):
each wire type paired with its accepted destination kinds.  The String
row's "string" is the plain `string` type only — the spec lists the
URL-tagged string under URI alone, and the code's String case indeed
panics on a `URL` destination — while the Boolean, Binary and Date rows'
"string" destinations are string-kind (both `string` and the named `URL`
type), matching the code's kind-based `SetString` there.  The `Binary`
row's `uint32/int32` and `int64/uint64` entries include the platform kinds
`uint`/`int` exactly as the code's case lists do; `Undef` accepts
everything (it is a no-op).  The spec's table has no row for the UUID wire
type. -/
def specConversionMatrix (ty : ScalarType) (d : RVal) : Bool :=
  match ty, d with
  | .real, .vF32 _ | .real, .vF64 _ | .real, .vIfaceNil | .real, .vIface _ => true
  | .integer, .vInt _ _ | .integer, .vIfaceNil | .integer, .vIface _ => true
  | .uri, .vURL _ | .uri, .vIfaceNil | .uri, .vIface _ => true
  | .str, .vString _ | .str, .vIfaceNil | .str, .vIface _ => true
  | .boolean, .vBool _ | .boolean, .vString _ | .boolean, .vURL _
  | .boolean, .vIfaceNil | .boolean, .vIface _ => true
  | .binary, .vBytes _ | .binary, .vByteArr _ _ | .binary, .vUUID _
  | .binary, .vIfaceNil | .binary, .vIface _ | .binary, .vString _
  | .binary, .vURL _ | .binary, .vBool _ | .binary, .vUint .u _
  | .binary, .vUint .u32 _ | .binary, .vUint .u64 _ | .binary, .vF32 _
  | .binary, .vInt .i _ | .binary, .vInt .i32 _ | .binary, .vInt .i64 _
  | .binary, .vF64 _ => true
  | .date, .vTime _ | .date, .vInt _ _ | .date, .vF32 _ | .date, .vF64 _
  | .date, .vString _ | .date, .vURL _ | .date, .vIfaceNil | .date, .vIface _ => true
  | .undefined, _ => true
  | _, _ => false

end GoLLSD

namespace GoLLSD

/-- C1 (code-bug evidence): the binary scanner maps op byte `1` (0x31) to a
boolean scalar with payload `[1]` and op byte `0` (0x30) to one with an
empty payload, consuming no payload bytes in either case; but the binary
decoder's `boolean` tests `len(b) > 1`, so both op bytes decode to false —
unmarshaling the one-byte binary document `1` into a bool destination sets
the destination to false, contradicting the claim (and spec property 6)
that op `1` decodes to true. -/
theorem c1_binary_boolean_op_one_decodes_false :
    (∀ st : BinSt, binOpDispatch 49 st = .ok (.scalar .boolean [1] [], st)) ∧
    (∀ st : BinSt, binOpDispatch 48 st = .ok (.scalar .boolean [] [], st)) ∧
    binaryDecoder.boolean [1] = .ok false ∧
    binaryDecoder.boolean [] = .ok false ∧
    unmarshalBinaryModel 20 [49] (.vBool false) = .ok (.vBool false, ⟨[], 1⟩) ∧
    unmarshalBinaryModel 20 [49] (.vBool true) = .ok (.vBool false, ⟨[], 1⟩) ∧
    unmarshalBinaryModel 20 [48] (.vBool true) = .ok (.vBool false, ⟨[], 1⟩) :=
  ⟨fun _ => rfl, fun _ => rfl, rfl, rfl, rfl, rfl, rfl⟩

/-- C2 (counterexample): decoding a UUID wire scalar into a nil pointer
destination does change the destination — the engine allocates the pointee
before reaching the (missing) UUID case, so a nil `*UUID` becomes a
non-nil pointer to the zero UUID. -/
theorem c2_counterexample_nil_pointer_allocated :
    scalar false 0 .uuidType (List.replicate 16 7) []
        (.vPtr (.vUUID (List.replicate 16 0)) true)
      = .ok (.vPtr (.vUUID (List.replicate 16 0)) false) ∧
    (RVal.vPtr (.vUUID (List.replicate 16 0)) true)
      ≠ (.vPtr (.vUUID (List.replicate 16 0)) false) :=
  ⟨rfl, by decide⟩

/-- C2 (amended): the scalar dispatch switch has no `UUIDType` case, so for
every modelled destination (none of which implements an unmarshal hook)
decoding a UUID wire scalar returns success and assigns nothing: a
non-pointer destination — including the library's own `UUID` type — is
returned completely unchanged, a non-nil pointer destination likewise, and
a nil pointer destination is allocated to its pointee's zero value but
nothing further is stored into it. -/
theorem c2_uuid_scalar_silent_noop :
    (∀ (text : Bool) (off : Int) (data : List Byte) (attr : List (String × String)) (d : RVal),
      d.isPtr = false → scalar text off .uuidType data attr d = .ok d) ∧
    (∀ (text : Bool) (off : Int) (data : List Byte) (attr : List (String × String)) (proto : RVal),
      scalar text off .uuidType data attr (.vPtr proto false) = .ok (.vPtr proto false)) ∧
    (∀ (text : Bool) (off : Int) (data : List Byte) (attr : List (String × String)) (proto : RVal),
      scalar text off .uuidType data attr (.vPtr proto true)
        = .ok (.vPtr (zeroOf proto) false)) := by
  refine ⟨fun text off data attr d hd => ?_, fun text off data attr proto => rfl,
    fun text off data attr proto => rfl⟩
  cases d <;> first | rfl | exact Bool.noConfusion hd

/-- C2 (witness): the no-op theorem applied to the library's own UUID type
holding a nonzero value. -/
theorem c2_uuid_scalar_silent_noop_witness :
    scalar false 9 .uuidType (List.replicate 16 7) [] (.vUUID (List.replicate 16 3))
      = .ok (.vUUID (List.replicate 16 3)) :=
  c2_uuid_scalar_silent_noop.1 false 9 (List.replicate 16 7) []
    (.vUUID (List.replicate 16 3)) rfl

/-- C3 (code-bug evidence): the binary integer decoder computes
`int64(binary.BigEndian.Uint32 b)`, a zero-extension: payload
`FF FF FF FD` decodes to 4294967293, not -3.  An int64 destination then
stores 4294967293 without error, and an int32 destination fails the
`OverflowInt` check with an `UnmarshalTypeError` — while the untyped-
interface branch, which applies `int32(value)`, yields -3, showing the
signed reading is the code's own intent elsewhere. -/
theorem c3_binary_integer_zero_extension :
    binaryDecoder.integer [255, 255, 255, 253] = .ok 4294967293 ∧
    (4294967293 : Int) ≠ -3 ∧
    unmarshalBinaryModel 20 [105, 255, 255, 255, 253] (.vInt .i64 0)
      = .ok (.vInt .i64 4294967293, ⟨[], 5⟩) ∧
    unmarshalBinaryModel 20 [105, 255, 255, 255, 253] (.vInt .i32 0)
      = .err (.unmarshalType ("integer " ++ strOfBytes [255, 255, 255, 253]) "int32" 5) ∧
    scalar false 5 .integer [255, 255, 255, 253] [] .vIfaceNil
      = .ok (.vIface (.vInt .i32 (-3))) :=
  ⟨rfl, by decide, rfl, rfl, rfl⟩

/-- C4 (counterexample): the text decoder's integer operation has no
empty-payload guard; on an empty payload `strconv.Atoi` reports a syntax
error, so the operation does not return `(0, nil)` as the claim states. -/
theorem c4_counterexample_text_integer_empty_errors :
    textDecoder.integer [] = .err (.plain "strconv.Atoi: parsing \"\": invalid syntax") ∧
    textDecoder.integer [] ≠ .ok 0 :=
  ⟨rfl, by decide⟩

/-- C4 (amended): on an empty payload, the real, uuid, binary and boolean
operations of both decoders and the text date operation return the type's
zero value and no error; but the text integer operation returns a
`strconv` parse error, and the binary integer and date operations read
past the empty payload (a runtime panic in `binary.BigEndian.Uint32`). -/
theorem c4_empty_payload_decodes_to_zero :
    textDecoder.real [] = .ok 0 ∧
    textDecoder.uuid [] = .ok (List.replicate 16 0) ∧
    (∀ encoding : String, textDecoder.binary [] encoding = .ok []) ∧
    textDecoder.boolean [] = .ok false ∧
    textDecoder.date [] = .ok 0 ∧
    binaryDecoder.real [] = .ok 0 ∧
    binaryDecoder.uuid [] = .ok (List.replicate 16 0) ∧
    (∀ encoding : String, binaryDecoder.binary [] encoding = .ok []) ∧
    binaryDecoder.boolean [] = .ok false ∧
    textDecoder.integer [] = .err (.plain "strconv.Atoi: parsing \"\": invalid syntax") ∧
    binaryDecoder.integer [] = .crash "runtime error: index out of range" ∧
    binaryDecoder.date [] = .crash "runtime error: index out of range" :=
  ⟨rfl, rfl, fun _ => rfl, rfl, rfl, rfl, rfl, fun _ => rfl, rfl, rfl, rfl, rfl⟩

/-- C5 (counterexample): decoding a URI scalar into an integer-kind
destination does not produce an `UnmarshalTypeError` — the URI case
assigns a `URL` value unconditionally, and `reflect.Value.Set` panics on
the non-assignable destination. -/
theorem c5_counterexample_uri_into_int_panics :
    scalar true 7 .uri (bytesOfStr "http://example.org") [] (.vInt .i 0)
      = .crash "reflect.Set: value of type llsd.URL is not assignable to type int" ∧
    specConversionMatrix .uri (.vInt .i 0) = false ∧
    (∀ (val ty : String) (off : Int),
      scalar true 7 .uri (bytesOfStr "http://example.org") [] (.vInt .i 0)
        ≠ .err (.unmarshalType val ty off)) := by
  refine ⟨rfl, rfl, fun val ty off h => ?_⟩
  rw [show scalar true 7 .uri (bytesOfStr "http://example.org") [] (.vInt .i 0)
      = .crash "reflect.Set: value of type llsd.URL is not assignable to type int" from rfl] at h
  exact Res.noConfusion h

/-- C5 (amended): for every wire type other than URI and UUID, and every
non-pointer destination kind outside the spec's conversion matrix other
than the (String, URL) pairing, scalar unmarshaling under the binary
decoder pair (whose payload pre-decoding cannot itself fail) returns
exactly the claimed `UnmarshalTypeError`: value is the wire-type label
with the raw payload, type is the destination's type, offset is the
tokenizer offset.  The exceptions are panics, not errors: a URI scalar is
assigned unconditionally — succeeding only for `URL` and untyped
destinations and panicking in `reflect.Set` for every other kind,
including plain strings — a String scalar into the named `URL` type
likewise panics in `reflect.Set` (second and third conjuncts), and a UUID
scalar, whose wire type has no matrix row at all, is silently ignored.
In text mode a Binary payload that fails its base16/base64/base85
pre-decoding surfaces that codec error instead. -/
theorem c5_out_of_matrix_pairs_unmarshal_type_error :
    (∀ (ty : ScalarType) (d : RVal) (off : Int) (data : List Byte)
        (attr : List (String × String)),
      ty ≠ .uri → ty ≠ .uuidType → (ty = .str → d.isURL = false) →
      d.isPtr = false → specConversionMatrix ty d = false →
      scalar false off ty data attr d
        = .err (.unmarshalType (ty.name ++ " " ++ strOfBytes data) d.typeName off)) ∧
    (∀ (text : Bool) (off : Int) (data : List Byte) (attr : List (String × String))
        (u : String),
      scalar text off .str data attr (.vURL u)
        = .crash "reflect.Set: value of type string is not assignable to type llsd.URL") ∧
    (∀ u : String, specConversionMatrix .str (.vURL u) = false) := by
  refine ⟨fun ty d off data attr huri huuid hstr hptr hm => ?_,
    fun text off data attr u => rfl, fun u => rfl⟩
  cases ty <;> cases d <;>
    first
    | exact absurd rfl huri
    | exact absurd rfl huuid
    | exact Bool.noConfusion (hstr rfl)
    | exact Bool.noConfusion hptr
    | exact Bool.noConfusion hm
    | rfl
    | (rename_i k x
       cases k <;>
         first
         | exact Bool.noConfusion hm
         | rfl)

/-- C5 (witness): a real scalar into a string destination is outside the
matrix and yields the claimed error. -/
theorem c5_out_of_matrix_pairs_witness :
    scalar false 3 .real [104, 105] [] (.vString "x")
      = .err (.unmarshalType (ScalarType.name .real ++ " " ++ strOfBytes [104, 105])
          "string" 3) :=
  c5_out_of_matrix_pairs_unmarshal_type_error.1 .real (.vString "x") 3 [104, 105] []
    (by decide) (by decide) (fun _ => rfl) rfl rfl

/-- C6 (counterexample): when the unknown field's value is a container the
engine does not skip the whole value — it advances past one token only, so
the container's contents are misread as the enclosing map's entries.
Here the unknown key `U` carries a nested map and the later known field
`A` is never decoded: the run succeeds with `A = 0` instead of the claimed
`A = 7`. -/
theorem c6_counterexample_container_not_drained :
    unmarshalF 20 true false (mockScan
        [.mapStart, .key "U", .mapStart, .key "X",
         .scalar .integer (bytesOfStr "1") [], .mapEnd,
         .key "A", .scalar .integer (bytesOfStr "7") [], .mapEnd])
        (.vStruct (.cons "A" "" (.vInt .i 0) .nil))
      = .ok (.vStruct (.cons "A" "" (.vInt .i 0) .nil),
          ⟨[(.key "A", 7), (.scalar .integer (bytesOfStr "7") [], 8), (.mapEnd, 9)], 6⟩) ∧
    (RVal.vStruct (.cons "A" "" (.vInt .i 0) .nil))
      ≠ (.vStruct (.cons "A" "" (.vInt .i 7) .nil)) :=
  ⟨rfl, by decide⟩

/-- C6 (amended): with `DisallowUnknownFields` off, a wire key matching no
known field makes the engine advance past exactly one token (`u.next()`)
and resume reading keys.  When the unknown value is a scalar token this
skips the complete value and the remaining known fields decode correctly
(second conjunct: the sibling field `A` still receives 7); when it is a
container only its start token is skipped. -/
theorem c6_unknown_field_skips_one_token :
    (∀ (fu : Nat) (text : Bool) (fieldTable : List FieldDesc) (fs : Fields) (k : String)
        (ty : ScalarType) (data : List Byte) (attr : List (String × String))
        (rest : List (Token × Int)) (o1 o2 off : Int),
      fieldTable.find? (fun f => f.wireName = k) = none →
      structLoop (fu + 1) text false fieldTable fs
          ⟨(.key k, o1) :: (.scalar ty data attr, o2) :: rest, off⟩
        = structLoop fu text false fieldTable fs ⟨rest, o2⟩) ∧
    unmarshalF 20 true false (mockScan
        [.mapStart, .key "U", .scalar .str (bytesOfStr "x") [],
         .key "A", .scalar .integer (bytesOfStr "7") [], .mapEnd])
        (.vStruct (.cons "A" "" (.vInt .i 0) .nil))
      = .ok (.vStruct (.cons "A" "" (.vInt .i 7) .nil), ⟨[], 6⟩) := by
  refine ⟨fun fu text fieldTable fs k ty data attr rest o1 o2 off h => ?_, rfl⟩
  simp [structLoop, Scan.token, Res.bind, h]

/-- C6 (witness): the skip equation applied to a concrete unknown key and
scalar token. -/
theorem c6_unknown_field_skips_one_token_witness :
    structLoop 5 true false [] .nil ⟨[(.key "U", 1), (.scalar .str [] [], 2)], 0⟩
      = structLoop 4 true false [] .nil ⟨[], 2⟩ :=
  c6_unknown_field_skips_one_token.1 4 true [] .nil "U" .str [] [] [] 1 2 0 rfl

/-- C7 (code-bug evidence): `decode.go`'s `Unmarshal` has no document-start
check — a stream whose first token is an integer scalar (the situation of
`decode_test.go`'s `TestNoStartDocument`, which expects the error
`Invalid LLSD: missing document start.`) is decoded successfully; and a
stream that does begin with `DocumentStart` (as produced by the
`xml_scan.go` revision of the XML scanner) fails with
`Invalid LLSD: unexpected DocumentStart` because `value` has no case for
it. -/
theorem c7_no_document_start_check :
    unmarshalF 20 true false (mockScan [.scalar .integer (bytesOfStr "1") []]) (.vInt .i 0)
      = .ok (.vInt .i 1, ⟨[], 1⟩) ∧
    unmarshalF 20 true false
        (mockScan [.documentStart, .scalar .integer (bytesOfStr "1") []]) (.vInt .i 0)
      = .err (.invalid "unexpected DocumentStart" 1) :=
  ⟨rfl, rfl⟩

/-- Parser events of the document
`<llsd><map><key>A</key><binary>FFFFFFFD</binary></map></llsd>`
(spec scenario S2). -/
def s2Events : List XmlEvent :=
  [.start "llsd" [], .start "map" [], .start "key" [], .chars "A", .endEl "key",
   .start "binary" [], .chars "FFFFFFFD", .endEl "binary", .endEl "map", .endEl "llsd"]

/-- C8: UnmarshalXML of
`<llsd><map><key>A</key><binary>FFFFFFFD</binary></map></llsd>` into a
record whose field `A` is an int32 succeeds with `A = -3`: the hex text
base16-decodes to the bytes FF FF FF FD, whose big-endian 32-bit pattern
4294967293 is truncated by `reflect.Value.SetInt` to the int32 value
-3. -/
theorem c8_xml_binary_hex_into_int32 :
    unmarshalXMLModel 30 s2Events (.vStruct (.cons "A" "" (.vInt .i32 0) .nil))
      = .ok (.vStruct (.cons "A" "" (.vInt .i32 (-3)) .nil), ⟨[], 9⟩) ∧
    hexDecode (bytesOfStr "FFFFFFFD") = .ok [255, 255, 255, 253] ∧
    wrapInt 32 (beU32 [255, 255, 255, 253] : Int) = -3 :=
  ⟨rfl, rfl, by decide⟩

/-- C9: the XML encoder's byte-sequence branch emits an `encoding`
attribute exactly when the field's effective encoding is not base16 — the
payload is uppercase hex for base16 (with or without a field tag) and
padded standard base64 for base64, and the base85 branch carries the
attribute as well; encoding the record `{A : []byte "Binary data"}` with
field tag `,base64` produces exactly the claimed document containing
`<binary encoding="base64">QmluYXJ5IGRhdGE=</binary>`. -/
theorem c9_xml_encoder_binary_encoding_attribute :
    (∀ bs : List Byte,
      marshalBytesElem "" 2 bs (some (parseTag ",base64" "A"))
        = .ok ("<binary encoding=\"base64\">" ++ base64Encode bs ++ "</binary>")) ∧
    (∀ bs : List Byte,
      marshalBytesElem "" 2 bs (some (parseTag "" "A"))
        = .ok ("<binary>" ++ hexEncodeUpper bs ++ "</binary>")) ∧
    (∀ bs : List Byte,
      marshalBytesElem "" 2 bs none
        = .ok ("<binary>" ++ hexEncodeUpper bs ++ "</binary>")) ∧
    (∀ bs : List Byte,
      marshalBytesElem "" 2 bs (some (parseTag ",base85" "A"))
        = .ok ("<binary encoding=\"base85\">" ++ xmlEscape (ascii85EncodeExt bs)
            ++ "</binary>")) ∧
    encodeModel 10 "" (.vStruct (.cons "A" ",base64" (.vBytes (bytesOfStr "Binary data")) .nil))
      = .ok (xmlHeaderStr ++
          "<llsd><map><key>A</key><binary encoding=\"base64\">QmluYXJ5IGRhdGE=</binary></map></llsd>") ∧
    encodeModel 10 "" (.vStruct (.cons "A" "" (.vBytes (bytesOfStr "Binary data")) .nil))
      = .ok (xmlHeaderStr ++
          "<llsd><map><key>A</key><binary>42696E6172792064617461</binary></map></llsd>") :=
  ⟨fun _ => rfl, fun _ => rfl, fun _ => rfl, fun _ => rfl, rfl, rfl⟩

/-- C10: `parseTag` maps the sole-contents tag `-` to a descriptor with the
omit flag set (and the encoder then excludes the field entirely), maps the
tag `-,` to a non-omitted descriptor whose wire name is the literal `-`,
and maps the empty tag to a descriptor keeping the field's source name. -/
theorem c10_parse_tag_hyphen_rules :
    (∀ name : String,
      parseTag "-" name
        = { encoding := "", name := name, omitted := true, omitEmpty := false }) ∧
    (∀ name : String,
      parseTag "-," name
        = { encoding := "base16", name := "-", omitted := false, omitEmpty := false }) ∧
    (∀ name : String,
      parseTag "" name
        = { encoding := "", name := name, omitted := false, omitEmpty := false }) ∧
    encodeModel 10 "" (.vStruct (.cons "A" "-" (.vString "str") .nil))
      = .ok (xmlHeaderStr ++ "<llsd><map></map></llsd>") ∧
    encodeModel 10 "" (.vStruct (.cons "A" "-," (.vString "str") .nil))
      = .ok (xmlHeaderStr ++ "<llsd><map><key>-</key><string>str</string></map></llsd>") :=
  ⟨fun _ => rfl, fun _ => rfl, fun _ => rfl, rfl, rfl⟩

end GoLLSD
